import Mathlib

/-!
Shallow embedding of the `syncstore` library (SolidJS cross-tab state
synchronization): the structured-flavor sync unit `createSyncStore`
(src/SyncStore.ts) and the registry/facade utilities (src/index.ts).

Modelling conventions:
* JavaScript runtime values that can appear in an envelope are modelled by
  `JVal`.  The `date` constructor models a live `Date` instance carrying its
  ISO rendering; all numbers are modelled as integers (timestamps are integer
  milliseconds from `Date.now()`).
* `JSON.stringify` followed by `JSON.parse` (the host platform codec used
  verbatim by SyncStore.ts, with no replacer/reviver) is modelled at the value
  level by `jsonImage`: `Date.prototype.toJSON` collapses a `Date` to its ISO
  string, everything else round-trips structurally.
* A serialized text is modelled by `JsonText`: either `wellFormed v` (a text
  that `JSON.parse` turns into the value `v`) or `malformed s` (a text on
  which `JSON.parse` throws).  The empty string (falsy in the `if
  (existingData)` guard) is also covered by `malformed`, since it both fails
  the truthiness check and fails to parse, leading to the same outcome.
* `localStorage` is a finite association list with unique keys; `Map`
  registries likewise.
-/

/-- A JavaScript value as it can appear inside an envelope: the JSON values
plus live `Date` instances (modelled with their ISO-8601 rendering). -/
inductive JVal where
  | null : JVal
  | bool (b : Bool) : JVal
  | num (n : Int) : JVal
  | str (s : String) : JVal
  | arr (elems : List JVal) : JVal
  | obj (fields : List (String × JVal)) : JVal
  | date (iso : String) : JVal

mutual
/-- Boolean structural equality on `JVal` (the nested inductive prevents
automatic derivation of decidable equality). -/
def jbeq : JVal → JVal → Bool
  | .null, .null => true
  | .bool a, .bool b => a == b
  | .num a, .num b => a == b
  | .str a, .str b => a == b
  | .arr xs, .arr ys => jbeqList xs ys
  | .obj fs, .obj gs => jbeqFields fs gs
  | .date a, .date b => a == b
  | _, _ => false

/-- `jbeq` over element lists. -/
def jbeqList : List JVal → List JVal → Bool
  | [], [] => true
  | x :: xs, y :: ys => jbeq x y && jbeqList xs ys
  | _, _ => false

/-- `jbeq` over field lists. -/
def jbeqFields : List (String × JVal) → List (String × JVal) → Bool
  | [], [] => true
  | (k, v) :: fs, (l, w) :: gs => k == l && jbeq v w && jbeqFields fs gs
  | _, _ => false
end

mutual
theorem jbeq_refl : ∀ a : JVal, jbeq a a = true
  | .null => rfl
  | .bool b => by simp [jbeq]
  | .num n => by simp [jbeq]
  | .str s => by simp [jbeq]
  | .arr xs => by simp [jbeq, jbeqList_refl xs]
  | .obj fs => by simp [jbeq, jbeqFields_refl fs]
  | .date s => by simp [jbeq]

theorem jbeqList_refl : ∀ xs : List JVal, jbeqList xs xs = true
  | [] => rfl
  | x :: xs => by simp [jbeqList, jbeq_refl x, jbeqList_refl xs]

theorem jbeqFields_refl : ∀ fs : List (String × JVal), jbeqFields fs fs = true
  | [] => rfl
  | (k, v) :: fs => by simp [jbeqFields, jbeq_refl v, jbeqFields_refl fs]
end

mutual
theorem eq_of_jbeq : ∀ a b : JVal, jbeq a b = true → a = b
  | .null, .null, _ => rfl
  | .bool a, .bool b, h => by simp [jbeq] at h; rw [h]
  | .num a, .num b, h => by simp [jbeq] at h; rw [h]
  | .str a, .str b, h => by simp [jbeq] at h; rw [h]
  | .arr xs, .arr ys, h => by
      simp only [jbeq] at h
      rw [eq_of_jbeqList xs ys h]
  | .obj fs, .obj gs, h => by
      simp only [jbeq] at h
      rw [eq_of_jbeqFields fs gs h]
  | .date a, .date b, h => by simp [jbeq] at h; rw [h]
  | .null, .bool _, h | .null, .num _, h | .null, .str _, h
  | .null, .arr _, h | .null, .obj _, h | .null, .date _, h
  | .bool _, .null, h | .bool _, .num _, h | .bool _, .str _, h
  | .bool _, .arr _, h | .bool _, .obj _, h | .bool _, .date _, h
  | .num _, .null, h | .num _, .bool _, h | .num _, .str _, h
  | .num _, .arr _, h | .num _, .obj _, h | .num _, .date _, h
  | .str _, .null, h | .str _, .bool _, h | .str _, .num _, h
  | .str _, .arr _, h | .str _, .obj _, h | .str _, .date _, h
  | .arr _, .null, h | .arr _, .bool _, h | .arr _, .num _, h
  | .arr _, .str _, h | .arr _, .obj _, h | .arr _, .date _, h
  | .obj _, .null, h | .obj _, .bool _, h | .obj _, .num _, h
  | .obj _, .str _, h | .obj _, .arr _, h | .obj _, .date _, h
  | .date _, .null, h | .date _, .bool _, h | .date _, .num _, h
  | .date _, .str _, h | .date _, .arr _, h | .date _, .obj _, h => by
      simp [jbeq] at h

theorem eq_of_jbeqList : ∀ xs ys : List JVal, jbeqList xs ys = true → xs = ys
  | [], [], _ => rfl
  | x :: xs, y :: ys, h => by
      simp only [jbeqList, Bool.and_eq_true] at h
      rw [eq_of_jbeq x y h.1, eq_of_jbeqList xs ys h.2]
  | [], _ :: _, h => by simp [jbeqList] at h
  | _ :: _, [], h => by simp [jbeqList] at h

theorem eq_of_jbeqFields :
    ∀ fs gs : List (String × JVal), jbeqFields fs gs = true → fs = gs
  | [], [], _ => rfl
  | (k, v) :: fs, (l, w) :: gs, h => by
      simp only [jbeqFields, Bool.and_eq_true, beq_iff_eq] at h
      rw [h.1.1, eq_of_jbeq v w h.1.2, eq_of_jbeqFields fs gs h.2]
  | [], _ :: _, h => by simp [jbeqFields] at h
  | _ :: _, [], h => by simp [jbeqFields] at h
end

instance : DecidableEq JVal := fun a b =>
  decidable_of_iff (jbeq a b = true)
    ⟨eq_of_jbeq a b, fun h => h ▸ jbeq_refl a⟩

/-- A serialized payload text: either parses to a value or makes
`JSON.parse` throw. -/
inductive JsonText where
  | malformed (s : String) : JsonText
  | wellFormed (v : JVal) : JsonText
deriving DecidableEq

/-- First binding of a property name in an object's field list (JSON.parse
produces objects with unique keys, so the lookup is unambiguous). -/
def lookupField : List (String × JVal) → String → Option JVal
  | [], _ => none
  | (k, v) :: rest, name => if k = name then some v else lookupField rest name

mutual
/-- Value-level model of `JSON.parse(JSON.stringify(v))` with no
replacer/reviver (exactly how SyncStore.ts serializes and deserializes):
`Date.prototype.toJSON` turns a `Date` into its ISO string, everything else
is preserved structurally. -/
def jsonImage : JVal → JVal
  | .null => .null
  | .bool b => .bool b
  | .num n => .num n
  | .str s => .str s
  | .arr xs => .arr (jsonImageList xs)
  | .obj fs => .obj (jsonImageFields fs)
  | .date iso => .str iso

/-- `jsonImage` mapped over array elements. -/
def jsonImageList : List JVal → List JVal
  | [] => []
  | x :: xs => jsonImage x :: jsonImageList xs

/-- `jsonImage` mapped over object fields. -/
def jsonImageFields : List (String × JVal) → List (String × JVal)
  | [] => []
  | (k, v) :: fs => (k, jsonImage v) :: jsonImageFields fs
end

mutual
/-- Whether a value contains a `Date` instance anywhere. -/
def hasDate : JVal → Bool
  | .null => false
  | .bool _ => false
  | .num _ => false
  | .str _ => false
  | .arr xs => hasDateList xs
  | .obj fs => hasDateFields fs
  | .date _ => true

/-- `hasDate` over array elements. -/
def hasDateList : List JVal → Bool
  | [] => false
  | x :: xs => hasDate x || hasDateList xs

/-- `hasDate` over object fields. -/
def hasDateFields : List (String × JVal) → Bool
  | [] => false
  | (_, v) :: fs => hasDate v || hasDateFields fs
end

/-- Property access `v.data` on a parsed value (some only for objects). -/
def getData : JVal → Option JVal
  | .obj fs => lookupField fs "data"
  | _ => none

/-- Property access `v.timestamp`, kept only when it is a number — mirrors
`typeof data.timestamp === "number"`. -/
def getTs : JVal → Option Int
  | .obj fs =>
    match lookupField fs "timestamp" with
    | some (.num t) => some t
    | _ => none
  | _ => none

/-- The type guard `isValidSyncData` of SyncStore.ts (lines 32-40):
`data && typeof data === "object" && "data" in data && "timestamp" in data
&& typeof data.timestamp === "number"`.  Of the parsed JSON values, only a
non-null object passes the first two conjuncts and can own the two
properties; arrays (`typeof` also "object") never carry a `"data"` property
name, so they fail the `in` checks. -/
def isValidSyncData : JVal → Bool
  | .obj fs =>
    (lookupField fs "data").isSome &&
      (match lookupField fs "timestamp" with
       | some (.num _) => true
       | _ => false)
  | _ => false

/-- The mutable per-unit synchronization state the apply logic touches: the
Solid store contents and the `lastUpdate` signal (the watermark). -/
structure UnitState where
  store : JVal
  lastUpdate : Int
deriving DecidableEq

/-- The shared apply-incoming algorithm (SyncStore.ts lines 109-119, 124-136,
144-159): `JSON.parse` the payload (a parse failure is caught and only
logged), then `if (isValidSyncData(parsedData) && parsedData.timestamp >
lastUpdate())` set the store to `parsedData.data` and the watermark to
`parsedData.timestamp`, else leave the state untouched. -/
def applyEnvelope (txt : JsonText) (st : UnitState) : UnitState :=
  match txt with
  | .malformed _ => st
  | .wellFormed v =>
    if isValidSyncData v then
      match getData v, getTs v with
      | some d, some t => if st.lastUpdate < t then ⟨d, t⟩ else st
      | _, _ => st
    else st

/-- The storage-event listener (SyncStore.ts lines 124-136): react only when
`event.key` equals the unit's prefixed key and `event.newValue` is present
(non-null), then run the shared apply algorithm. -/
def storageEventStep (key : String) (evKey : String) (newValue : Option JsonText)
    (st : UnitState) : UnitState :=
  match newValue with
  | some txt => if evKey = "syncstore-" ++ key then applyEnvelope txt st else st
  | none => st

/-- One polling tick (SyncStore.ts lines 144-159): read the current raw text,
and only when it differs from the remembered `lastData` and is present, run
the shared apply algorithm and remember the new text.  Returns the updated
unit state together with the new `lastData`. -/
def pollTickStep (current lastData : Option JsonText) (st : UnitState) :
    UnitState × Option JsonText :=
  match current with
  | some txt =>
    if some txt ≠ lastData then (applyEnvelope txt st, some txt) else (st, lastData)
  | none => (st, lastData)

/-- The envelope text `sync()` produces: `JSON.stringify({data: store,
timestamp})` — as the value the text denotes once parsed back
(`jsonImage` accounts for `Date.prototype.toJSON`). -/
def encodeEnvelope (d : JVal) (t : Int) : JVal :=
  .obj [("data", jsonImage d), ("timestamp", .num t)]

/-- The durable store (`localStorage`): association list from string keys to
stored texts; keys are unique as in the real store. -/
abbrev Storage := List (String × JsonText)

/-- `localStorage.getItem`. -/
def getItem (s : Storage) (k : String) : Option JsonText :=
  match s with
  | [] => none
  | (k', v) :: rest => if k' = k then some v else getItem rest k

/-- `localStorage.setItem`: overwrite the binding for `k` (keys stay
unique). -/
def setItem (s : Storage) (k : String) (v : JsonText) : Storage :=
  (k, v) :: (s : List (String × JsonText)).filter (fun kv => kv.1 ≠ k)

/-- `localStorage.removeItem`. -/
def removeItem (s : Storage) (k : String) : Storage :=
  (s : List (String × JsonText)).filter (fun kv => kv.1 ≠ k)

/-- `"broadcast"` vs `"localStorage"` (the `storageType` option). -/
inductive StorageKind where
  | broadcast : StorageKind
  | localOnly : StorageKind
deriving DecidableEq

/-- The `SyncStoreOptions` object as it exists at runtime.  `key` is
`Option String` because a caller can pass an options object that simply
lacks the field (TypeScript's requiredness is erased at runtime); `none`
models the absent/`undefined` property. -/
structure StoreOptions where
  key : Option String
  initialValue : JVal
  storageType : StorageKind := .broadcast
  persistOnLoad : Bool := true
  pollingInterval : Option Int := none

/-- JavaScript template-literal rendering of the destructured `key` inside
`` `syncstore-${key}` ``: an `undefined` key renders as the string
"undefined". -/
def keyString : Option String → String
  | some s => s
  | none => "undefined"

/-- `loadExistingData` (SyncStore.ts lines 85-102): read
`localStorage.getItem("syncstore-<key>")`; on a present, parseable text that
passes `isValidSyncData`, set the store to its `data` and the watermark to
its `timestamp` UNCONDITIONALLY (no comparison against the current
watermark) and report success; any other outcome (absent entry, falsy/empty
text, parse throw — caught and logged — or failed shape check) reports
failure and leaves the state alone.  `avail` models
`typeof window !== "undefined" && window.localStorage`. -/
def loadExistingData (avail : Bool) (storage : Storage) (storeKey : String) :
    Option UnitState :=
  if avail then
    match getItem storage storeKey with
    | none => none
    | some (.malformed _) => none
    | some (.wellFormed v) =>
      if isValidSyncData v then
        match getData v, getTs v with
        | some d, some t => some ⟨d, t⟩
        | _, _ => none
      else none
  else none

/-- Environment a unit is constructed in: the durable store, whether
`window.localStorage` is usable, and the `Date.now()` reading at
construction time. -/
structure Env where
  storage : Storage
  storageAvail : Bool
  now : Int

/-- Result of running the construction: the unit's state, the durable store
afterwards, and how many `sync()` calls happened during construction. -/
structure BuildResult where
  state : UnitState
  storage : Storage
  syncCount : Nat
deriving DecidableEq

/-- `createSyncStore` (SyncStore.ts lines 11-171), restricted to the effects
the claims are about.  `if (!options) throw new Error("SyncStore options are
required")` is the ONLY throw in the function; afterwards `key` is
destructured (possibly `undefined`), the store starts at `initialValue`, the
watermark signal at `Date.now()`, and — only when `persistOnLoad` is true —
`loadExistingData()` runs and, when it reports that nothing was loaded, a
single initial `sync()` fires (which stamps `Date.now()`, sets the
watermark, and writes the envelope to `localStorage` when available). -/
def createSyncStoreM (env : Env) (options : Option StoreOptions) :
    Except String BuildResult :=
  match options with
  | none => .error "SyncStore options are required"
  | some o =>
    let storeKey := "syncstore-" ++ keyString o.key
    let st0 : UnitState := ⟨o.initialValue, env.now⟩
    if o.persistOnLoad then
      match loadExistingData env.storageAvail env.storage storeKey with
      | some st1 => .ok ⟨st1, env.storage, 0⟩
      | none =>
        let stored :=
          if env.storageAvail then
            setItem env.storage storeKey
              (.wellFormed (encodeEnvelope st0.store env.now))
          else env.storage
        .ok ⟨{ st0 with lastUpdate := env.now }, stored, 1⟩
    else .ok ⟨st0, env.storage, 0⟩

/-- One operation on a live unit, for watermark traces: delivery of an
incoming payload, or the unit's own `sync()` at clock reading `t`
(`sync` reads `Date.now()` and unconditionally `setLastUpdate(timestamp)`,
SyncStore.ts lines 46-48; it reads but never writes the store cell). -/
inductive UnitOp where
  | incoming (txt : JsonText) : UnitOp
  | syncAt (t : Int) : UnitOp
deriving DecidableEq

/-- Effect of one operation on the unit's cell-and-watermark state. -/
def stepOp (st : UnitState) : UnitOp → UnitState
  | .incoming txt => applyEnvelope txt st
  | .syncAt t => { st with lastUpdate := t }

/-- A thrown JavaScript error as inspected by the handler in `sync()`. -/
structure JsError where
  name : String
  message : String
deriving DecidableEq

/-- A `BroadcastChannel` handle; `underlyingClosed` records whether the host
object has been closed (by this unit's cleanup or the enclosing realm). -/
structure ChannelHandle where
  underlyingClosed : Bool
deriving DecidableEq

/-- `channel.postMessage(payload)`: throws `InvalidStateError` when the
channel is already closed, succeeds otherwise. -/
def postMessage (h : ChannelHandle) : Except JsError Unit :=
  if h.underlyingClosed then
    .error ⟨"InvalidStateError", "Channel is closed"⟩
  else .ok ()

/-- `String.prototype.includes` on the error message. -/
def messageIncludes (s pat : String) : Bool :=
  (s.splitOn pat).length ≥ 2

/-- The closed-channel test of SyncStore.ts line 67:
`error?.message?.includes("Channel is closed") || error?.name ===
"InvalidStateError"`. -/
def isClosedChannelError (e : JsError) : Bool :=
  messageIncludes e.message "Channel is closed" || e.name == "InvalidStateError"

/-- The per-unit facts `sync()` consults that construction fixed: the key,
the `storageType` option, `window.localStorage` usability, and whether
`"BroadcastChannel" in window`. -/
structure SyncCtx where
  key : Option String
  storageType : StorageKind
  storageAvail : Bool
  broadcastSupported : Bool

/-- The mutable closure state `sync()` touches: the cell/watermark pair and
the `channel` / `channelClosed` variables. -/
structure SyncMut where
  cell : UnitState
  channel : Option ChannelHandle
  channelClosed : Bool
deriving DecidableEq

/-- What one `sync()` call produced: the closure state afterwards, the
durable store afterwards, whether a broadcast was actually posted, and the
error (if any) that escaped to the caller. -/
structure SyncResult where
  closure : SyncMut
  storage : Storage
  posted : Bool
  surfaced : Option JsError
deriving DecidableEq

/-- `sync()` (SyncStore.ts lines 46-79).  `Date.now()` is read into
`timestamp` and `setLastUpdate(timestamp)` runs unconditionally; the
envelope is stringified; then, inside the outer `try`: the durable-store
write happens first (when `window.localStorage` is usable), and the
broadcast step runs only under `storageType === "broadcast" && ... &&
channel && !channelClosed`.  A `postMessage` throw matching
`isClosedChannelError` is absorbed by the inner catch, which marks
`channelClosed = true` and nulls `channel`; any other throw is re-thrown
into the outer catch, which only logs — so nothing ever escapes to the
caller (`surfaced` is `none` on every path). -/
def syncM (ctx : SyncCtx) (now : Int) (st : SyncMut) (storage : Storage) :
    SyncResult :=
  let st := { st with cell := { st.cell with lastUpdate := now } }
  let payload : JsonText := .wellFormed (encodeEnvelope st.cell.store now)
  let storage' :=
    if ctx.storageAvail then
      setItem storage ("syncstore-" ++ keyString ctx.key) payload
    else storage
  match ctx.storageType, ctx.broadcastSupported, st.channel, st.channelClosed with
  | .broadcast, true, some h, false =>
    match postMessage h with
    | .ok _ => ⟨st, storage', true, none⟩
    | .error e =>
      if isClosedChannelError e then
        ⟨{ st with channelClosed := true, channel := none }, storage', false, none⟩
      else
        ⟨st, storage', false, none⟩
  | _, _, _, _ => ⟨st, storage', false, none⟩

/-- The state the `cleanup` closure (SyncStore.ts lines 174-192) touches:
its own `channel` / `channelClosed` / `storageListener` / `pollingInterval`
variables, the window's registered-listener and active-timer sets, and the
two registries.  `window.removeEventListener` removes a listener from the
window's set (re-removing an absent listener is a no-op, and
`addEventListener` never registers the same listener twice, so the set is
modelled by a duplicate-free filter); `clearInterval` likewise cancels a
timer id, a no-op when already cancelled; `Map.delete` on an absent key is a
no-op.  Registries are modelled as their key lists here (keys unique). -/
structure CleanupState where
  channel : Option ChannelHandle
  channelClosed : Bool
  storageListener : Option Nat
  pollingInterval : Option Nat
  registeredListeners : List Nat
  activeTimers : List Nat
  syncKeys : List String
  cleanupKeys : List String
deriving DecidableEq

/-- The `cleanup` closure (SyncStore.ts lines 174-192): close the channel
(errors from `close()` are ignored), set `channelClosed = true` and null
`channel`; `removeEventListener` the storage listener when one was
installed (the variable is never nulled); `clearInterval` the polling timer
when one was started (likewise never nulled); delete this key from both
registries. -/
def cleanupM (key : String) (s : CleanupState) : CleanupState :=
  let s :=
    match s.channel with
    | some _ => { s with channelClosed := true, channel := none }
    | none => s
  let s :=
    match s.storageListener with
    | some l =>
      { s with registeredListeners := s.registeredListeners.filter (· ≠ l) }
    | none => s
  let s :=
    match s.pollingInterval with
    | some id => { s with activeTimers := s.activeTimers.filter (· ≠ id) }
    | none => s
  { s with
    syncKeys := s.syncKeys.filter (· ≠ key),
    cleanupKeys := s.cleanupKeys.filter (· ≠ key) }

/-- Generic `Map.get` on an association list with unique keys. -/
def mapGet {α : Type} : List (String × α) → String → Option α
  | [], _ => none
  | (k', v) :: rest, k => if k' = k then some v else mapGet rest k

/-- Generic `Map.set`: overwrite any existing binding for the key ("last
registration for a key wins"). -/
def mapSet {α : Type} (m : List (String × α)) (k : String) (v : α) :
    List (String × α) :=
  (k, v) :: m.filter (fun kv => kv.1 ≠ k)

/-- Generic `Map.delete` (no-op when the key is absent). -/
def mapDel {α : Type} (m : List (String × α)) (k : String) :
    List (String × α) :=
  m.filter (fun kv => kv.1 ≠ k)

/-- A registered cleanup closure, abstracted to its observable behaviour
when invoked: either it returns, or it throws the recorded error. -/
structure CleanupFn where
  tag : String
  throws : Option JsError
deriving DecidableEq

/-- Invoking a registered cleanup closure. -/
def invokeCleanup (f : CleanupFn) : Except JsError Unit :=
  match f.throws with
  | some e => .error e
  | none => .ok ()

/-- The `cleanupFunctions.forEach` loop of `clearAllSyncData` (index.ts
lines 75-81): each registered closure is invoked inside its own
`try { cleanup() } catch (e) { console.error(...) }`, so whether or not the
call throws, the loop proceeds to the next entry.  Returns the tags of the
closures that were actually invoked, in order. -/
def runCleanupsProtected : List (String × CleanupFn) → List String
  | [] => []
  | (_, f) :: rest =>
    match invokeCleanup f with
    | .ok _ => f.tag :: runCleanupsProtected rest
    | .error _ => f.tag :: runCleanupsProtected rest

/-- Whether a durable-store key carries one of the two namespace prefixes
(index.ts line 88). -/
def hasSyncNamespace (k : String) : Bool :=
  k.startsWith "syncstore-" || k.startsWith "syncsignal-"

/-- Result of `clearAllSyncData()`: which cleanups ran, the durable store
afterwards, and both registries afterwards. -/
structure ClearAllResult where
  invoked : List String
  storage : Storage
  syncFns : List (String × CleanupFn)
  cleanupFns : List (String × CleanupFn)
deriving DecidableEq

/-- `clearAllSyncData` (index.ts lines 72-101): run every registered cleanup
under a per-call catch; then (when `window.localStorage` is usable) collect
every stored key starting with `syncstore-` or `syncsignal-` and remove each
collected key; finally `clear()` both registries. -/
def clearAllSyncDataM (avail : Bool)
    (_syncFns cleanupFns : List (String × CleanupFn)) (storage : Storage) :
    ClearAllResult :=
  let invoked := runCleanupsProtected cleanupFns
  let storage' :=
    if avail then
      ((storage.map (fun kv => kv.1)).filter hasSyncNamespace).foldl
        removeItem storage
    else storage
  { invoked := invoked, storage := storage', syncFns := [], cleanupFns := [] }

/-- The `type` argument of `clearSyncData` ("store" | "signal"). -/
inductive Flavor where
  | store : Flavor
  | signal : Flavor
deriving DecidableEq

/-- Result of `clearSyncData(key, type)`: the cleanup closure that got
invoked (if one was registered), the durable store afterwards, and both
registries afterwards. -/
structure ClearOneResult where
  invoked : Option CleanupFn
  storage : Storage
  syncFns : List (String × CleanupFn)
  cleanupFns : List (String × CleanupFn)
deriving DecidableEq

/-- `clearSyncData` (index.ts lines 46-66): look up `cleanupFunctions.get(key)`
by the BARE key and invoke it when present (its own registry deletions are
subsumed by the explicit deletes below); choose the storage namespace from the
`type` argument alone (`"syncsignal-"` for signal, `"syncstore-"` otherwise)
and remove that single prefixed entry when `window.localStorage` is usable;
then delete the bare key from both registries. -/
def clearSyncDataM (key : String) (type : Flavor) (avail : Bool)
    (syncFns cleanupFns : List (String × CleanupFn)) (storage : Storage) :
    ClearOneResult :=
  let invoked := mapGet cleanupFns key
  let nsTag := match type with
    | .signal => "syncsignal-"
    | .store => "syncstore-"
  let storage' := if avail then removeItem storage (nsTag ++ key) else storage
  { invoked := invoked,
    storage := storage',
    syncFns := mapDel syncFns key,
    cleanupFns := mapDel cleanupFns key }

/-- The structured unit's registrations during `createSyncStore`
(SyncStore.ts lines 82 and 195): `syncFunctions.set(key, sync)` and
`cleanupFunctions.set(key, cleanup)` — both under the bare key string, no
flavor prefix. -/
def registerStoreUnit (key : String) (syncFn cleanFn : CleanupFn)
    (syncFns cleanupFns : List (String × CleanupFn)) :
    List (String × CleanupFn) × List (String × CleanupFn) :=
  (mapSet syncFns key syncFn, mapSet cleanupFns key cleanFn)

/-- Modelled from the spec: the scalar unit's registrations.  SyncSignal.ts
is not under src/ (index.ts only re-exports `createSyncSignal` from it); per
spec §3 the Unit Registry is a single process-wide "mapping from key →
{syncTrigger, teardown}" shared by both flavors, entries added at unit
construction, "last registration for a key wins if collision occurs" — so
the scalar unit registers its closures under the same bare key string. -/
def registerSignalUnit (key : String) (syncFn cleanFn : CleanupFn)
    (syncFns cleanupFns : List (String × CleanupFn)) :
    List (String × CleanupFn) × List (String × CleanupFn) :=
  (mapSet syncFns key syncFn, mapSet cleanupFns key cleanFn)

mutual
theorem jsonImage_eq_self : ∀ v : JVal, hasDate v = false → jsonImage v = v
  | .null, _ => rfl
  | .bool _, _ => rfl
  | .num _, _ => rfl
  | .str _, _ => rfl
  | .arr xs, h => by
      simp only [hasDate] at h
      simp only [jsonImage, jsonImageList_eq_self xs h]
  | .obj fs, h => by
      simp only [hasDate] at h
      simp only [jsonImage, jsonImageFields_eq_self fs h]
  | .date _, h => by simp [hasDate] at h

theorem jsonImageList_eq_self :
    ∀ xs : List JVal, hasDateList xs = false → jsonImageList xs = xs
  | [], _ => rfl
  | x :: xs, h => by
      simp only [hasDateList, Bool.or_eq_false_iff] at h
      simp only [jsonImageList, jsonImage_eq_self x h.1,
        jsonImageList_eq_self xs h.2]

theorem jsonImageFields_eq_self :
    ∀ fs : List (String × JVal), hasDateFields fs = false → jsonImageFields fs = fs
  | [], _ => rfl
  | (k, v) :: fs, h => by
      simp only [hasDateFields, Bool.or_eq_false_iff] at h
      simp only [jsonImageFields, jsonImage_eq_self v h.1,
        jsonImageFields_eq_self fs h.2]
end

/-- C4, counterexample.  The claim states that encoding rewrites a `Date`
into the tagged structure `{__type:"Date", value: isoString}` and that
`decode(encode(v))` deep-equals `v` even for Date values.  SyncStore.ts
serializes with a bare `JSON.stringify` (line 50) and deserializes with a
bare `JSON.parse` (line 111): a `Date` is collapsed by
`Date.prototype.toJSON` to its plain ISO string, which is neither the tagged
structure nor a `Date` after decoding. -/
theorem C4_counterexample :
    jsonImage (JVal.date "2024-01-01T00:00:00.000Z")
        = JVal.str "2024-01-01T00:00:00.000Z" ∧
    jsonImage (JVal.date "2024-01-01T00:00:00.000Z")
        ≠ JVal.date "2024-01-01T00:00:00.000Z" ∧
    jsonImage (JVal.date "2024-01-01T00:00:00.000Z")
        ≠ JVal.obj [("__type", JVal.str "Date"),
                    ("value", JVal.str "2024-01-01T00:00:00.000Z")] := by
  refine ⟨rfl, ?_, ?_⟩ <;> decide

/-- C4, amended.  Encoding for persistence or broadcast is plain JSON
serialization (`JSON.stringify` with no replacer): decoding the encoding of
`v` deep-equals `v` exactly when `v` contains no `Date` instance, while a
`Date` leaf is rewritten by `Date.prototype.toJSON` into its plain ISO
string (not a tagged structure) and therefore decodes to a string. -/
theorem C4_plain_json_roundtrip :
    (∀ v : JVal, hasDate v = false → jsonImage v = v) ∧
    (∀ iso : String, jsonImage (JVal.date iso) = JVal.str iso) :=
  ⟨jsonImage_eq_self, fun _ => rfl⟩

/-- C4 witness: the round-trip conjunct applied to a concrete Date-free
envelope body. -/
theorem C4_plain_json_roundtrip_witness :
    hasDate (JVal.obj [("count", JVal.num 1)]) = false ∧
    jsonImage (JVal.obj [("count", JVal.num 1)])
        = JVal.obj [("count", JVal.num 1)] :=
  ⟨by decide,
   C4_plain_json_roundtrip.1 (JVal.obj [("count", JVal.num 1)]) (by decide)⟩

theorem applyEnvelope_valid (st : UnitState) (v d : JVal) (t : Int)
    (hv : isValidSyncData v = true) (hd : getData v = some d)
    (ht : getTs v = some t) :
    applyEnvelope (.wellFormed v) st = if st.lastUpdate < t then ⟨d, t⟩ else st := by
  simp [applyEnvelope, hv, hd, ht]

theorem applyEnvelope_le (st : UnitState) (txt : JsonText) :
    st.lastUpdate ≤ (applyEnvelope txt st).lastUpdate := by
  cases txt with
  | malformed s => exact le_refl _
  | wellFormed v =>
    simp only [applyEnvelope]
    by_cases hv : isValidSyncData v
    · simp only [hv, if_true]
      cases hd : getData v with
      | none => cases getTs v <;> exact le_refl _
      | some d =>
        cases ht : getTs v with
        | none => exact le_refl _
        | some t =>
          by_cases hlt : st.lastUpdate < t
          · simp [hlt]; omega
          · simp [hlt]
    · simp [hv]

/-- C1.  The shared apply-incoming algorithm accepts a delivered payload
exactly when it decodes, passes the `isValidSyncData` shape check, and
carries a timestamp strictly greater than the watermark — in which case it
installs that data and timestamp; a tie or older timestamp, a shape-check
failure, or a parse failure each leave the state untouched.  The broadcast
`onmessage` handler runs this algorithm directly; the storage-event listener
runs it for an event carrying the unit's prefixed key with a present
`newValue`; a polling tick runs it whenever the raw stored text differs from
the remembered one.  Consequently, for two valid envelopes with distinct
timestamps whose maximum beats the watermark, delivery in either order ends
with the data of the strictly greater timestamp. -/
theorem C1_apply_incoming_lww :
    (∀ (st : UnitState) (v d : JVal) (t : Int),
        isValidSyncData v = true → getData v = some d → getTs v = some t →
        (st.lastUpdate < t →
            applyEnvelope (.wellFormed v) st = ⟨d, t⟩) ∧
        (t ≤ st.lastUpdate → applyEnvelope (.wellFormed v) st = st)) ∧
    (∀ (st : UnitState) (v : JVal), isValidSyncData v = false →
        applyEnvelope (.wellFormed v) st = st) ∧
    (∀ (st : UnitState) (s : String), applyEnvelope (.malformed s) st = st) ∧
    (∀ (st : UnitState) (key : String) (txt : JsonText),
        storageEventStep key ("syncstore-" ++ key) (some txt) st
          = applyEnvelope txt st) ∧
    (∀ (st : UnitState) (lastData : Option JsonText) (txt : JsonText),
        some txt ≠ lastData →
        pollTickStep (some txt) lastData st = (applyEnvelope txt st, some txt)) ∧
    (∀ (st : UnitState) (vA vB dA dB : JVal) (tA tB : Int),
        isValidSyncData vA = true → getData vA = some dA → getTs vA = some tA →
        isValidSyncData vB = true → getData vB = some dB → getTs vB = some tB →
        tA ≠ tB → st.lastUpdate < max tA tB →
        (applyEnvelope (.wellFormed vB)
            (applyEnvelope (.wellFormed vA) st)).store
          = (if tA < tB then dB else dA) ∧
        (applyEnvelope (.wellFormed vA)
            (applyEnvelope (.wellFormed vB) st)).store
          = (if tA < tB then dB else dA)) := by
  refine ⟨?_, ?_, ?_, ?_, ?_, ?_⟩
  · intro st v d t hv hd ht
    constructor
    · intro hlt; rw [applyEnvelope_valid st v d t hv hd ht, if_pos hlt]
    · intro hle; rw [applyEnvelope_valid st v d t hv hd ht, if_neg (by omega)]
  · intro st v hv; simp [applyEnvelope, hv]
  · intro st s; rfl
  · intro st key txt; simp [storageEventStep]
  · intro st lastData txt hne; simp [pollTickStep, hne]
  · intro st vA vB dA dB tA tB hvA hdA htA hvB hdB htB hne hmax
    rw [applyEnvelope_valid st vA dA tA hvA hdA htA,
        applyEnvelope_valid st vB dB tB hvB hdB htB]
    by_cases hAB : tA < tB
    · have hstB : st.lastUpdate < tB := by
        rcases max_cases tA tB with ⟨he, _⟩ | ⟨he, _⟩ <;> omega
      constructor
      · by_cases hA : st.lastUpdate < tA
        · rw [if_pos hA, if_pos hAB,
              applyEnvelope_valid ⟨dA, tA⟩ vB dB tB hvB hdB htB]
          simp [hAB]
        · rw [if_neg hA, if_pos hAB,
              applyEnvelope_valid st vB dB tB hvB hdB htB, if_pos hstB]
      · rw [if_pos hstB, if_pos hAB,
            applyEnvelope_valid ⟨dB, tB⟩ vA dA tA hvA hdA htA,
            if_neg (show ¬((UnitState.mk dB tB).lastUpdate < tA) by simp; omega)]
    · have hBA : tB < tA := by omega
      have hstA : st.lastUpdate < tA := by
        rcases max_cases tA tB with ⟨he, _⟩ | ⟨he, _⟩ <;> omega
      constructor
      · rw [if_pos hstA, if_neg hAB,
            applyEnvelope_valid ⟨dA, tA⟩ vB dB tB hvB hdB htB,
            if_neg (show ¬((UnitState.mk dA tA).lastUpdate < tB) by simp; omega)]
      · by_cases hB : st.lastUpdate < tB
        · rw [if_pos hB, if_neg hAB,
              applyEnvelope_valid ⟨dB, tB⟩ vA dA tA hvA hdA htA]
          simp [hBA, hAB]
        · rw [if_neg hB, if_neg hAB,
              applyEnvelope_valid st vA dA tA hvA hdA htA, if_pos hstA]

/-- C1 witness: two concrete valid envelopes (timestamps 1 and 2) delivered
to a fresh unit in either order both end with the data of timestamp 2. -/
theorem C1_apply_incoming_lww_witness :
    isValidSyncData (JVal.obj [("data", JVal.str "a"), ("timestamp", JVal.num 1)])
        = true ∧
    (applyEnvelope
        (.wellFormed (JVal.obj [("data", JVal.str "b"), ("timestamp", JVal.num 2)]))
        (applyEnvelope
          (.wellFormed (JVal.obj [("data", JVal.str "a"), ("timestamp", JVal.num 1)]))
          ⟨JVal.null, 0⟩)).store
      = (if (1 : Int) < 2 then JVal.str "b" else JVal.str "a") :=
  ⟨by decide,
   (C1_apply_incoming_lww.2.2.2.2.2 ⟨JVal.null, 0⟩
      (JVal.obj [("data", JVal.str "a"), ("timestamp", JVal.num 1)])
      (JVal.obj [("data", JVal.str "b"), ("timestamp", JVal.num 2)])
      (JVal.str "a") (JVal.str "b") 1 2
      (by decide) (by decide) (by decide) (by decide) (by decide) (by decide)
      (by decide) (by decide)).1⟩

/-- C2, counterexample.  `sync()` (SyncStore.ts lines 46-48) unconditionally
runs `setLastUpdate(Date.now())`, so after the unit accepts an incoming
envelope stamped ahead of the local clock (cross-context clock skew is
explicitly not corrected), the unit's own next `sync()` moves the watermark
BACKWARDS: accept timestamp 100, then `sync()` at clock reading 50. -/
theorem C2_counterexample :
    ((stepOp ⟨JVal.null, 0⟩
        (UnitOp.incoming (.wellFormed
          (JVal.obj [("data", JVal.str "remote"), ("timestamp", JVal.num 100)])))).lastUpdate
      = 100) ∧
    ((stepOp
        (stepOp ⟨JVal.null, 0⟩
          (UnitOp.incoming (.wellFormed
            (JVal.obj [("data", JVal.str "remote"), ("timestamp", JVal.num 100)]))))
        (UnitOp.syncAt 50)).lastUpdate = 50) ∧
    ((50 : Int) < 100) := by
  refine ⟨by decide, by decide, by decide⟩

/-- C2, amended.  The watermark never decreases across any sequence of
incoming-envelope deliveries (accepted or discarded); a `sync()` call,
however, overwrites it with the `Date.now()` reading of that call, so
monotonicity across a unit's whole lifetime holds only while no accepted
envelope carried a timestamp ahead of a later local clock reading. -/
theorem C2_watermark_monotonic_amended :
    (∀ (st : UnitState) (txt : JsonText),
        st.lastUpdate ≤ (applyEnvelope txt st).lastUpdate) ∧
    (∀ (st : UnitState) (txts : List JsonText),
        st.lastUpdate
          ≤ (txts.foldl (fun s txt => applyEnvelope txt s) st).lastUpdate) ∧
    (∀ (st : UnitState) (t : Int), (stepOp st (UnitOp.syncAt t)).lastUpdate = t) := by
  refine ⟨applyEnvelope_le, ?_, fun _ _ => rfl⟩
  intro st txts
  induction txts generalizing st with
  | nil => exact le_refl _
  | cons txt rest ih =>
    exact le_trans (applyEnvelope_le st txt) (ih (applyEnvelope txt st))

theorem isValidSyncData_iff (v : JVal) :
    isValidSyncData v = true ↔
      ∃ fs, v = JVal.obj fs ∧ (∃ d, lookupField fs "data" = some d) ∧
        ∃ t, lookupField fs "timestamp" = some (JVal.num t) := by
  cases v with
  | obj fs =>
    simp only [isValidSyncData, Bool.and_eq_true, Option.isSome_iff_exists,
      JVal.obj.injEq]
    constructor
    · rintro ⟨⟨d, hd⟩, hm⟩
      refine ⟨fs, rfl, ⟨d, hd⟩, ?_⟩
      revert hm
      cases ht : lookupField fs "timestamp" with
      | none => intro hm; cases hm
      | some w => cases w <;> intro hm <;> first | exact ⟨_, rfl⟩ | cases hm
    · rintro ⟨fs', hfs, ⟨d, hd⟩, ⟨t, ht⟩⟩
      cases hfs
      exact ⟨⟨d, hd⟩, by rw [ht]⟩
  | null => simp [isValidSyncData]
  | bool b => simp [isValidSyncData]
  | num n => simp [isValidSyncData]
  | str s => simp [isValidSyncData]
  | arr xs => simp [isValidSyncData]
  | date iso => simp [isValidSyncData]

/-- C7.  A payload that fails to `JSON.parse` (the throw is caught and only
logged) or that fails the `isValidSyncData` shape check is discarded and the
unit's store and watermark stay exactly as they were; and the shape check
accepts precisely the objects carrying a `data` property and a numeric
`timestamp` property. -/
theorem C7_invalid_payload_discarded :
    (∀ (st : UnitState) (s : String), applyEnvelope (.malformed s) st = st) ∧
    (∀ (st : UnitState) (v : JVal), isValidSyncData v = false →
        applyEnvelope (.wellFormed v) st = st) ∧
    (∀ v : JVal, isValidSyncData v = true ↔
        ∃ fs, v = JVal.obj fs ∧ (∃ d, lookupField fs "data" = some d) ∧
          ∃ t, lookupField fs "timestamp" = some (JVal.num t)) := by
  refine ⟨fun _ _ => rfl, ?_, isValidSyncData_iff⟩
  intro st v hv
  simp [applyEnvelope, hv]

/-- C7 witness: the shape-check-failure conjunct applied to a concrete
non-envelope payload (a bare number) leaves a concrete unit state
untouched. -/
theorem C7_invalid_payload_discarded_witness :
    isValidSyncData (JVal.num 3) = false ∧
    applyEnvelope (.wellFormed (JVal.num 3)) ⟨JVal.str "keep", 7⟩
      = ⟨JVal.str "keep", 7⟩ :=
  ⟨by decide,
   C7_invalid_payload_discarded.2.1 ⟨JVal.str "keep", 7⟩ (JVal.num 3) (by decide)⟩

/-- Whether construction completed without throwing. -/
def buildSucceeded : Except String BuildResult → Bool
  | .ok _ => true
  | .error _ => false

/-- C3, counterexample.  The only throw in `createSyncStore` is
`if (!options) throw new Error("SyncStore options are required")`
(SyncStore.ts lines 13-15): it fires when the options OBJECT is absent, not
when the `key` field is.  Constructing with an options object whose required
`key` is missing raises nothing — the unit is built normally, with the
destructured `undefined` key rendering as the literal string "undefined"
inside the prefixed storage key. -/
theorem C3_counterexample :
    createSyncStoreM ⟨[], true, 10⟩
        (some { key := none, initialValue := JVal.num 0 }) =
      .ok ⟨⟨JVal.num 0, 10⟩,
           [("syncstore-undefined",
             .wellFormed (JVal.obj [("data", JVal.num 0), ("timestamp", JVal.num 10)]))],
           1⟩ :=
  rfl

/-- C3, amended.  Construction raises the configuration error synchronously
exactly when the options object itself is missing; any provided options
object — even one lacking the required `key` — constructs without error, and
this missing-options error is the only failure that surfaces to the
caller. -/
theorem C3_options_error_amended :
    (∀ env : Env,
        createSyncStoreM env none = .error "SyncStore options are required") ∧
    (∀ (env : Env) (o : StoreOptions),
        buildSucceeded (createSyncStoreM env (some o)) = true) := by
  refine ⟨fun _ => rfl, ?_⟩
  intro env o
  simp only [createSyncStoreM]
  by_cases hp : o.persistOnLoad
  · simp only [hp, if_true]
    cases loadExistingData env.storageAvail env.storage
        ("syncstore-" ++ keyString o.key) <;> rfl
  · simp [hp, buildSucceeded]

theorem loadExistingData_valid (storage : Storage) (storeKey : String)
    (v d : JVal) (t : Int)
    (hg : getItem storage storeKey = some (.wellFormed v))
    (hv : isValidSyncData v = true) (hd : getData v = some d)
    (ht : getTs v = some t) :
    loadExistingData true storage storeKey = some ⟨d, t⟩ := by
  simp [loadExistingData, hg, hv, hd, ht]

/-- C5, counterexample.  The claim says the persisted envelope is read and
applied "for any value of persistOnLoad", but `loadExistingData()` is only
invoked inside `if (persistOnLoad)` (SyncStore.ts lines 164-171; the option
is documented as "Whether to load the store's initial value from storage").
With `persistOnLoad=false` and a valid envelope `{data:"persisted",
timestamp:5}` already stored, the built unit keeps `initialValue` ("fresh"),
keeps creation-time watermark 10, performs no read-apply, and no sync. -/
theorem C5_counterexample :
    createSyncStoreM
        ⟨[("syncstore-k",
           .wellFormed (JVal.obj [("data", JVal.str "persisted"),
                                  ("timestamp", JVal.num 5)]))],
         true, 10⟩
        (some { key := some "k", initialValue := JVal.str "fresh",
                persistOnLoad := false }) =
      .ok ⟨⟨JVal.str "fresh", 10⟩,
           [("syncstore-k",
             .wellFormed (JVal.obj [("data", JVal.str "persisted"),
                                    ("timestamp", JVal.num 5)]))],
           0⟩ :=
  rfl

/-- C5, amended.  With `persistOnLoad=true` (the default): a stored valid
envelope is applied to the cell unconditionally (no watermark gating — the
concrete witness applies timestamp 5 over creation watermark 10) and its
timestamp becomes the watermark, with no sync() and no storage write; when
nothing valid is found, exactly one sync() runs, leaving the durable entry
`{data: initialValue, timestamp: constructionTime}`.  With
`persistOnLoad=false` the construction neither reads nor writes the durable
store and performs no sync(). -/
theorem C5_bootstrap_amended :
    (∀ (env : Env) (o : StoreOptions) (v d : JVal) (t : Int),
        o.persistOnLoad = true → env.storageAvail = true →
        getItem env.storage ("syncstore-" ++ keyString o.key)
          = some (.wellFormed v) →
        isValidSyncData v = true → getData v = some d → getTs v = some t →
        createSyncStoreM env (some o) = .ok ⟨⟨d, t⟩, env.storage, 0⟩) ∧
    (∀ (env : Env) (o : StoreOptions),
        o.persistOnLoad = true → env.storageAvail = true →
        loadExistingData true env.storage ("syncstore-" ++ keyString o.key)
          = none →
        createSyncStoreM env (some o) =
          .ok ⟨⟨o.initialValue, env.now⟩,
               setItem env.storage ("syncstore-" ++ keyString o.key)
                 (.wellFormed (encodeEnvelope o.initialValue env.now)), 1⟩) ∧
    (∀ (env : Env) (o : StoreOptions),
        o.persistOnLoad = false →
        createSyncStoreM env (some o) =
          .ok ⟨⟨o.initialValue, env.now⟩, env.storage, 0⟩) := by
  refine ⟨?_, ?_, ?_⟩
  · intro env o v d t hp ha hg hv hd ht
    have hl := loadExistingData_valid env.storage
      ("syncstore-" ++ keyString o.key) v d t hg hv hd ht
    simp [createSyncStoreM, hp, ha, hl]
  · intro env o hp ha hl
    simp [createSyncStoreM, hp, ha, hl]
  · intro env o hp
    simp [createSyncStoreM, hp]

/-- C5 witness: the valid-envelope conjunct applied to a concrete store
whose persisted timestamp 5 is BELOW the creation watermark 10 — the
bootstrap applies it anyway. -/
theorem C5_bootstrap_amended_witness :
    getItem [("syncstore-k",
        JsonText.wellFormed (JVal.obj [("data", JVal.str "persisted"),
                                       ("timestamp", JVal.num 5)]))]
        ("syncstore-" ++ keyString (some "k"))
      = some (.wellFormed (JVal.obj [("data", JVal.str "persisted"),
                                     ("timestamp", JVal.num 5)])) ∧
    createSyncStoreM
        ⟨[("syncstore-k",
           .wellFormed (JVal.obj [("data", JVal.str "persisted"),
                                  ("timestamp", JVal.num 5)]))],
         true, 10⟩
        (some { key := some "k", initialValue := JVal.str "fresh" }) =
      .ok ⟨⟨JVal.str "persisted", 5⟩,
           [("syncstore-k",
             .wellFormed (JVal.obj [("data", JVal.str "persisted"),
                                    ("timestamp", JVal.num 5)]))],
           0⟩ :=
  ⟨by decide,
   C5_bootstrap_amended.1
      ⟨[("syncstore-k",
         .wellFormed (JVal.obj [("data", JVal.str "persisted"),
                                ("timestamp", JVal.num 5)]))],
       true, 10⟩
      { key := some "k", initialValue := JVal.str "fresh" }
      (JVal.obj [("data", JVal.str "persisted"), ("timestamp", JVal.num 5)])
      (JVal.str "persisted") 5
      rfl rfl (by decide) (by decide) (by decide) (by decide)⟩

/-- C6.  A `sync()` issued while the broadcast channel is already closed —
whether the unit's own `channelClosed` flag is already set (broadcast guard
skips the post) or the underlying handle was closed out from under it
(`postMessage` throws, the inner catch matches the closed-channel error,
marks the flag and nulls the handle) — surfaces no error to the caller,
posts nothing, leaves `channelClosed = true`, and still performs the
durable-store write of the freshly stamped envelope (which the code runs
before the broadcast step). -/
theorem C6_closed_channel_sync :
    ∀ (ctx : SyncCtx) (now : Int) (st : SyncMut) (storage : Storage)
      (h : ChannelHandle),
      ctx.storageType = .broadcast → ctx.broadcastSupported = true →
      ctx.storageAvail = true →
      st.channel = some h →
      (st.channelClosed = true ∨ h.underlyingClosed = true) →
      (syncM ctx now st storage).surfaced = none ∧
      (syncM ctx now st storage).posted = false ∧
      (syncM ctx now st storage).storage
        = setItem storage ("syncstore-" ++ keyString ctx.key)
            (.wellFormed (encodeEnvelope st.cell.store now)) ∧
      (syncM ctx now st storage).closure.channelClosed = true ∧
      (syncM ctx now st storage).closure.cell.lastUpdate = now := by
  intro ctx now st storage h hty hbs hav hch hclosed
  obtain ⟨cell, channel, closed⟩ := st
  simp only at hch
  subst hch
  cases closed with
  | true =>
    simp [syncM, hty, hbs, hav]
  | false =>
    simp only at hclosed
    have hu : h.underlyingClosed = true := by
      rcases hclosed with hc | hc
      · cases hc
      · exact hc
    simp [syncM, hty, hbs, hav, postMessage, hu, isClosedChannelError,
      messageIncludes]

/-- C6 witness: a concrete `sync()` against an externally closed handle with
the flag not yet set. -/
theorem C6_closed_channel_sync_witness :
    (SyncMut.mk (UnitState.mk (JVal.num 1) 0)
        (some (ChannelHandle.mk true)) false).channel
      = some (ChannelHandle.mk true) ∧
    (syncM (SyncCtx.mk (some "k") .broadcast true true) 42
        (SyncMut.mk (UnitState.mk (JVal.num 1) 0)
          (some (ChannelHandle.mk true)) false) []).surfaced = none ∧
    (syncM (SyncCtx.mk (some "k") .broadcast true true) 42
        (SyncMut.mk (UnitState.mk (JVal.num 1) 0)
          (some (ChannelHandle.mk true)) false) []).storage
      = setItem [] ("syncstore-" ++ keyString (some "k"))
          (.wellFormed (encodeEnvelope (JVal.num 1) 42)) :=
  ⟨rfl,
   (C6_closed_channel_sync (SyncCtx.mk (some "k") .broadcast true true) 42
      (SyncMut.mk (UnitState.mk (JVal.num 1) 0)
        (some (ChannelHandle.mk true)) false) [] (ChannelHandle.mk true)
      rfl rfl rfl rfl (Or.inr rfl)).1,
   (C6_closed_channel_sync (SyncCtx.mk (some "k") .broadcast true true) 42
      (SyncMut.mk (UnitState.mk (JVal.num 1) 0)
        (some (ChannelHandle.mk true)) false) [] (ChannelHandle.mk true)
      rfl rfl rfl rfl (Or.inr rfl)).2.2.1⟩

theorem runCleanupsProtected_all (l : List (String × CleanupFn)) :
    runCleanupsProtected l = l.map (fun kv => kv.2.tag) := by
  induction l with
  | nil => rfl
  | cons kv rest ih =>
    obtain ⟨k, f⟩ := kv
    cases hf : invokeCleanup f <;> simp [runCleanupsProtected, hf, ih]

theorem mem_foldl_removeItem (ks : List String) (s : Storage) (k : String)
    (v : JsonText) :
    (k, v) ∈ ks.foldl removeItem s ↔ ((k, v) ∈ s ∧ k ∉ ks) := by
  induction ks generalizing s with
  | nil => simp
  | cons a ks ih =>
    simp only [List.foldl_cons, ih, removeItem, List.mem_filter,
      List.mem_cons, decide_eq_true_eq]
    constructor
    · rintro ⟨⟨hs, hne⟩, hnotin⟩
      exact ⟨hs, by rintro (h | h) <;> [exact hne h; exact hnotin h]⟩
    · rintro ⟨hs, hnotin⟩
      exact ⟨⟨hs, fun h => hnotin (Or.inl h)⟩, fun h => hnotin (Or.inr h)⟩

/-- C8.  `clearAllSyncData()` invokes every registered cleanup closure — the
per-call `try/catch` means a throwing closure never prevents the remaining
ones from running — then removes exactly the durable-store entries whose key
starts with `syncstore-` or `syncsignal-` (all other entries survive), and
finally leaves both registries empty. -/
theorem C8_clear_all_sync_data :
    ∀ (syncFns cleanupFns : List (String × CleanupFn)) (storage : Storage),
      (clearAllSyncDataM true syncFns cleanupFns storage).invoked
        = cleanupFns.map (fun kv => kv.2.tag) ∧
      (∀ (k : String) (v : JsonText),
          (k, v) ∈ (clearAllSyncDataM true syncFns cleanupFns storage).storage
            ↔ ((k, v) ∈ storage ∧ hasSyncNamespace k = false)) ∧
      (clearAllSyncDataM true syncFns cleanupFns storage).syncFns = [] ∧
      (clearAllSyncDataM true syncFns cleanupFns storage).cleanupFns = [] := by
  intro syncFns cleanupFns storage
  refine ⟨runCleanupsProtected_all cleanupFns, ?_, rfl, rfl⟩
  intro k v
  simp only [clearAllSyncDataM, if_true, mem_foldl_removeItem,
    List.mem_filter, List.mem_map]
  constructor
  · rintro ⟨hs, hnot⟩
    refine ⟨hs, ?_⟩
    by_contra hns
    exact hnot ⟨⟨(k, v), hs, rfl⟩, by
      cases hh : hasSyncNamespace k
      · exact absurd hh hns
      · rfl⟩
  · rintro ⟨hs, hns⟩
    refine ⟨hs, ?_⟩
    rintro ⟨-, hk⟩
    rw [hns] at hk
    cases hk

/-- C9.  The unit's `cleanup` closure is idempotent: a second invocation
finds the channel already nulled, the storage listener already removed from
the window's listener set, the polling timer already cancelled, and the
registry keys already deleted — every step is a no-op, so the end state of
two invocations equals that of one, and no step can throw (`close()` errors
are explicitly swallowed). -/
theorem C9_cleanup_idempotent :
    ∀ (key : String) (s : CleanupState),
      cleanupM key (cleanupM key s) = cleanupM key s := by
  intro key s
  obtain ⟨ch, cc, sl, pi, rl, at_, sk, ck⟩ := s
  cases ch <;> cases sl <;> cases pi <;>
    simp [cleanupM, List.filter_filter]

theorem mapGet_mapSet_self {α : Type} (m : List (String × α)) (k : String)
    (v : α) : mapGet (mapSet m k v) k = some v := by
  simp [mapGet, mapSet]

/-- C10.  Both flavors register their sync and cleanup closures in the two
process-wide maps under the bare key string (no flavor prefix), so a scalar
unit and a structured unit created with the same key overwrite each other's
registry entries in whichever order they are created; and
`clearSyncData(key, type)` invokes whatever cleanup closure sits under the
bare key — the same one for `type="signal"` and `type="store"` — while the
`type` argument only selects which prefixed durable-store entry
(`syncsignal-<key>` vs `syncstore-<key>`) is removed, the registry deletions
being identical for both. -/
theorem C10_bare_key_registry :
    ∀ (key : String) (sSig cSig sSto cSto : CleanupFn)
      (syncFns cleanupFns : List (String × CleanupFn)) (storage : Storage),
      (mapGet (registerStoreUnit key sSto cSto
          (registerSignalUnit key sSig cSig syncFns cleanupFns).1
          (registerSignalUnit key sSig cSig syncFns cleanupFns).2).1 key
        = some sSto ∧
       mapGet (registerStoreUnit key sSto cSto
          (registerSignalUnit key sSig cSig syncFns cleanupFns).1
          (registerSignalUnit key sSig cSig syncFns cleanupFns).2).2 key
        = some cSto) ∧
      (mapGet (registerSignalUnit key sSig cSig
          (registerStoreUnit key sSto cSto syncFns cleanupFns).1
          (registerStoreUnit key sSto cSto syncFns cleanupFns).2).1 key
        = some sSig ∧
       mapGet (registerSignalUnit key sSig cSig
          (registerStoreUnit key sSto cSto syncFns cleanupFns).1
          (registerStoreUnit key sSto cSto syncFns cleanupFns).2).2 key
        = some cSig) ∧
      (∀ t : Flavor,
          (clearSyncDataM key t true syncFns cleanupFns storage).invoked
            = mapGet cleanupFns key) ∧
      ((clearSyncDataM key .signal true syncFns cleanupFns storage).storage
          = removeItem storage ("syncsignal-" ++ key) ∧
       (clearSyncDataM key .store true syncFns cleanupFns storage).storage
          = removeItem storage ("syncstore-" ++ key)) ∧
      (∀ t : Flavor,
          (clearSyncDataM key t true syncFns cleanupFns storage).syncFns
            = mapDel syncFns key ∧
          (clearSyncDataM key t true syncFns cleanupFns storage).cleanupFns
            = mapDel cleanupFns key) := by
  intro key sSig cSig sSto cSto syncFns cleanupFns storage
  refine ⟨⟨?_, ?_⟩, ⟨?_, ?_⟩, ?_, ⟨rfl, rfl⟩, fun t => ⟨rfl, rfl⟩⟩
  · exact mapGet_mapSet_self _ key sSto
  · exact mapGet_mapSet_self _ key cSto
  · exact mapGet_mapSet_self _ key sSig
  · exact mapGet_mapSet_self _ key cSig
  · intro t; rfl
